import Mathlib

set_option maxHeartbeats 1000000

namespace Ash

/-- Access types from the `vk_sync` crate used by this crate, together with two
caller-side access types (shader reads, general) so that concrete scenarios can
be written down. `Nothing` is `vk_sync::AccessType::Nothing`. -/
inductive AccessType where
  | Nothing
  | TransferRead
  | TransferWrite
  | FragmentShaderReadSampledImageOrUniformTexelBuffer
  | AnyShaderReadSampledImageOrUniformTexelBuffer
  | General
  deriving DecidableEq, Repr

/-- Image layouts from the `vk_sync` crate. -/
inductive ImageLayout where
  | Optimal
  | General
  | GeneralAndPresentation
  deriving DecidableEq, Repr

/-- Image aspect flags used by the crate (`COLOR` or `DEPTH`). -/
inductive AspectFlags where
  | color
  | depth
  deriving DecidableEq, Repr

structure Extent3D where
  width : Nat
  height : Nat
  depth : Nat
  deriving DecidableEq, Repr

structure Offset3D where
  x : Int
  y : Int
  z : Int
  deriving DecidableEq, Repr

/-- Model of `vk::ImageSubresourceRange` as built by the crate (aspect mask,
base mip level, level count, layer count; the base array layer is always 0). -/
structure ImageSubresourceRange where
  aspectMask : AspectFlags
  baseMipLevel : Nat
  levelCount : Nat
  layerCount : Nat
  deriving DecidableEq, Repr

/-- Model of `vk_sync::ImageBarrier` restricted to the fields this crate sets:
previous/next access sets, next layout, subresource range and the
discard-contents flag. -/
structure ImageBarrier where
  previousAccesses : List AccessType
  nextAccesses : List AccessType
  nextLayout : ImageLayout
  range : ImageSubresourceRange
  discardContents : Bool
  deriving DecidableEq, Repr

structure ImageSubresourceLayers where
  aspectMask : AspectFlags
  mipLevel : Nat
  baseArrayLayer : Nat
  layerCount : Nat
  deriving DecidableEq, Repr

/-- Model of `vk::ImageBlit`: source and destination subresource layers and the
two offset corners of each region. -/
structure ImageBlit where
  srcSubresource : ImageSubresourceLayers
  srcOffsets : Offset3D × Offset3D
  dstSubresource : ImageSubresourceLayers
  dstOffsets : Offset3D × Offset3D
  deriving DecidableEq, Repr

/-- Model of `vk::BufferImageCopy` as built by `load_image_from_bytes`. -/
structure BufferImageCopy where
  bufferRowLength : Nat
  bufferImageHeight : Nat
  imageSubresource : ImageSubresourceLayers
  imageExtent : Extent3D
  deriving DecidableEq, Repr

/-- Commands this crate records on the caller's command buffer, in recording
order: `vk_sync::cmd::pipeline_barrier`, `cmd_copy_buffer_to_image` and
`cmd_blit_image` (always with linear filter, image-to-same-image). -/
inductive Cmd where
  | pipelineBarrier (imageBarriers : List ImageBarrier)
  | copyBufferToImage (region : BufferImageCopy)
  | blitImage (region : ImageBlit)
  deriving DecidableEq, Repr

/-- The modulus of `u32` arithmetic. -/
def u32Mod : Nat := 4294967296

/-- Wrapping `u32` subtraction (for `a, b < 2^32`); this is what
`mip_levels - 1` computes when it underflows in a release build. -/
def u32sub (a b : Nat) : Nat := (a + u32Mod - b) % u32Mod

/-- Rust `as i32` conversion of a `u32` value given as a natural below `2^32`. -/
def u32AsI32 (n : Nat) : Int :=
  if n < 2147483648 then (n : Int) else (n : Int) - 4294967296

/-- Rust division on `i32` truncates toward zero, which is `Int.tdiv`. -/
def rustDiv (a b : Int) : Int := Int.tdiv a b

/-- One step of the width/height update in `generate_mips`:
`(width / 2).max(1)`. -/
def halveClamp (x : Int) : Int := max (rustDiv x 2) 1

/-- The single-level subresource range built in `generate_mips` for mip level
`level` (color aspect, one level, one layer). -/
def mipRange (level : Nat) : ImageSubresourceRange :=
  { aspectMask := .color, baseMipLevel := level, levelCount := 1, layerCount := 1 }

/-- The `vk::ImageBlit` recorded by iteration `i` of `generate_mips`: blit the
full extent of level `i` into level `i + 1` at `((w / 2).max(1), (h / 2).max(1))`. -/
def mipBlit (i : Nat) (width height : Int) : ImageBlit :=
  { srcSubresource := { aspectMask := .color, mipLevel := i, baseArrayLayer := 0, layerCount := 1 }
    srcOffsets := (⟨0, 0, 0⟩, ⟨width, height, 1⟩)
    dstSubresource := { aspectMask := .color, mipLevel := i + 1, baseArrayLayer := 0, layerCount := 1 }
    dstOffsets := (⟨0, 0, 0⟩, ⟨max (rustDiv width 2) 1, max (rustDiv height 2) 1, 1⟩) }

/-- The single batched barrier command recorded after the blit of iteration `i`
of `generate_mips`: level `i` goes from transfer-read to the caller state, and
level `i + 1` goes from transfer-write to transfer-read, or to the caller state
when `i + 1` is the last level (`lastIndex = mip_levels - 1`). -/
def mipBarrier (nextAccesses : List AccessType) (nextLayout : ImageLayout)
    (lastIndex i : Nat) : Cmd :=
  .pipelineBarrier
    [ { previousAccesses := [.TransferRead], nextAccesses := nextAccesses,
        nextLayout := nextLayout, range := mipRange i, discardContents := false },
      { previousAccesses := [.TransferWrite],
        nextAccesses := if i + 1 = lastIndex then nextAccesses else [.TransferRead],
        nextLayout := if i + 1 = lastIndex then nextLayout else .Optimal,
        range := mipRange (i + 1), discardContents := false } ]

/-- The two commands recorded by one iteration of the `generate_mips` loop. -/
def mipStep (nextAccesses : List AccessType) (nextLayout : ImageLayout)
    (lastIndex i : Nat) (width height : Int) : List Cmd :=
  [.blitImage (mipBlit i width height),
   mipBarrier nextAccesses nextLayout lastIndex i]

/-- The loop of `generate_mips`, with the iteration count made explicit as
`fuel` and the current loop index as `i`. -/
def genMipsLoop (nextAccesses : List AccessType) (nextLayout : ImageLayout)
    (lastIndex : Nat) : Nat → Nat → Int → Int → List Cmd
  | _, 0, _, _ => []
  | i, fuel + 1, width, height =>
    mipStep nextAccesses nextLayout lastIndex i width height ++
      genMipsLoop nextAccesses nextLayout lastIndex (i + 1) fuel
        (halveClamp width) (halveClamp height)

/-- Shallow embedding of `generate_mips`: the list of commands it records. The
loop runs for `i in 0..mip_levels - 1`, with the bound computed in wrapping
`u32` arithmetic as in the source. -/
def generate_mips (width height : Int) (mipLevels : Nat)
    (nextAccesses : List AccessType) (nextLayout : ImageLayout) : List Cmd :=
  genMipsLoop nextAccesses nextLayout (u32sub mipLevels 1) 0 (u32sub mipLevels 1)
    width height

/-- Natural-number counterpart of `halveClamp`, for reasoning about the
width/height sequence. -/
def natHalveClamp (n : Nat) : Nat := max (n / 2) 1

/-- The blit regions recorded in a command list, in order. -/
def blitsOf (cmds : List Cmd) : List ImageBlit :=
  cmds.filterMap (fun c =>
    match c with
    | .blitImage b => some b
    | _ => none)

/-- The copy regions recorded in a command list, in order. -/
def copiesOf (cmds : List Cmd) : List BufferImageCopy :=
  cmds.filterMap (fun c =>
    match c with
    | .copyBufferToImage r => some r
    | _ => none)

/-- The number of `pipeline_barrier` commands in a command list. -/
def barrierCount (cmds : List Cmd) : Nat :=
  cmds.countP (fun c =>
    match c with
    | .pipelineBarrier _ => true
    | _ => false)

/-- The access/layout state of one mip level, as declared by the most recent
barrier that covered it. -/
abbrev LevelState := List AccessType × ImageLayout

/-- Whether a subresource range covers mip level `j`. -/
def coversLevel (r : ImageSubresourceRange) (j : Nat) : Prop :=
  r.baseMipLevel ≤ j ∧ j < r.baseMipLevel + r.levelCount

instance (r : ImageSubresourceRange) (j : Nat) : Decidable (coversLevel r j) := by
  unfold coversLevel
  infer_instance

/-- Applying one image barrier to the per-level state: every level covered by
the barrier's range moves to the barrier's next access set and next layout. -/
def applyBarrier (st : Nat → LevelState) (b : ImageBarrier) : Nat → LevelState :=
  fun j => if coversLevel b.range j then (b.nextAccesses, b.nextLayout) else st j

/-- Applying one recorded command to the per-level state: a pipeline barrier
applies each of its image barriers in order; copies and blits do not change
the declared barrier state. -/
def applyCmd (st : Nat → LevelState) (c : Cmd) : Nat → LevelState :=
  match c with
  | .pipelineBarrier bs => bs.foldl applyBarrier st
  | _ => st

/-- Running a recorded command list over the per-level barrier state. -/
def runTrace (st : Nat → LevelState) (cmds : List Cmd) : Nat → LevelState :=
  cmds.foldl applyCmd st

/-- The image barriers contained in one command. -/
def cmdBarriers (c : Cmd) : List ImageBarrier :=
  match c with
  | .pipelineBarrier bs => bs
  | _ => []

/-- How many image barriers in the command list transition mip level `j` to
exactly the access set `acc` and layout `lay`. -/
def transitionCount (cmds : List Cmd) (acc : List AccessType) (lay : ImageLayout)
    (j : Nat) : Nat :=
  (cmds.flatMap cmdBarriers).countP
    (fun b => decide (coversLevel b.range j ∧ b.nextAccesses = acc ∧ b.nextLayout = lay))

/-- The precondition state of `generate_mips` as established by
`load_image_from_bytes`: level 0 in transfer-source-read, levels `1..N-1` in
transfer-write, all in the `Optimal` layout. -/
def mipInitialState (mipLevels : Nat) : Nat → LevelState :=
  fun j =>
    if j = 0 then ([AccessType.TransferRead], ImageLayout.Optimal)
    else if j < mipLevels then ([AccessType.TransferWrite], ImageLayout.Optimal)
    else ([AccessType.Nothing], ImageLayout.Optimal)

/-- Pixel formats used in the crate and its scenarios; `D32_SFLOAT` is singled
out by `Image::new` for the depth aspect. -/
inductive Format where
  | R8G8B8A8_UNORM
  | B8G8R8A8_SRGB
  | D32_SFLOAT
  deriving DecidableEq, Repr

/-- Model of `vk::ImageViewType`. -/
inductive ImageViewType where
  | ty1D
  | ty2D
  | ty3D
  | cube
  | ty1DArray
  | ty2DArray
  | cubeArray
  deriving DecidableEq, Repr

/-- Model of `vk::ImageType`. -/
inductive ImageType where
  | ty1D
  | ty2D
  | ty3D
  deriving DecidableEq, Repr

/-- Embedding of `ty_from_view_ty`: base dimensionality of a view type. The
source's wildcard arm (`vk::ImageType::default()`) is unreachable for the
closed set of view types modelled here. -/
def ty_from_view_ty (ty : ImageViewType) : ImageType :=
  match ty with
  | .ty1D | .ty1DArray => .ty1D
  | .ty2D | .ty2DArray | .cube | .cubeArray => .ty2D
  | .ty3D => .ty3D

inductive ImageTiling where
  | optimal
  | linear
  deriving DecidableEq, Repr

/-- Image usage flags used by the crate. -/
inductive ImageUsage where
  | sampled
  | transferDst
  | transferSrc
  | storage
  | colorAttachment
  | depthStencilAttachment
  deriving DecidableEq, Repr

/-- Memory locations requested from the `gpu_allocator` capability. -/
inductive MemoryLocation where
  | GpuOnly
  | CpuToGpu
  deriving DecidableEq, Repr

/-- Allocator-facing actions performed by a resource-creation call. -/
inductive AllocAction where
  | allocate (name : String) (location : MemoryLocation) (linear : Bool)
  | free (name : String)
  deriving DecidableEq, Repr

/-- Whether an allocator action is an allocation (used to state that a call
never frees anything internally). -/
def AllocAction.isAllocate (a : AllocAction) : Bool :=
  match a with
  | .allocate _ _ _ => true
  | .free _ => false

/-- The fields of `vk::ImageCreateInfo` that the crate sets. -/
structure ImageCreateInfo where
  imageType : ImageType
  format : Format
  extent : Extent3D
  mipLevels : Nat
  arrayLayers : Nat
  samples : Nat
  tiling : ImageTiling
  usage : List ImageUsage
  deriving DecidableEq, Repr

/-- Model of a created `Image` value: its creation info plus the view the
crate creates for it. -/
structure ImageModel where
  createInfo : ImageCreateInfo
  viewType : ImageViewType
  viewRange : ImageSubresourceRange
  deriving DecidableEq, Repr

inductive BufferUsage where
  | transferSrc
  | transferDst
  | storageBuffer
  deriving DecidableEq, Repr

/-- Model of a created `Buffer` value. -/
structure BufferModel where
  name : String
  usage : List BufferUsage
  data : List UInt8
  location : MemoryLocation
  deriving DecidableEq, Repr

/-- Embedding of `Buffer::new`: a host-visible (CpuToGpu) buffer whose mapped
allocation is filled with the given bytes at construction. -/
def Buffer.new (bytes : List UInt8) (name : String) (usage : List BufferUsage) : BufferModel :=
  { name := name, usage := usage, data := bytes, location := .CpuToGpu }

/-- The full-resource subresource range used by `load_image_from_bytes`
(color aspect, base level 0, `mipLevels` levels, one layer). -/
def fullColorRange (mipLevels : Nat) : ImageSubresourceRange :=
  { aspectMask := .color, baseMipLevel := 0, levelCount := mipLevels, layerCount := 1 }

/-- Embedding of the usage-flag computation in `load_image_from_bytes`:
`SAMPLED | TRANSFER_DST`, plus `TRANSFER_SRC` only when `mip_levels > 1`. -/
def loadImageUsage (mipLevels : Nat) : List ImageUsage :=
  if 1 < mipLevels then [.sampled, .transferDst, .transferSrc]
  else [.sampled, .transferDst]

/-- Parameters of `load_image_from_bytes` (the `LoadImageDescriptor` struct). -/
structure LoadImageDescriptor where
  bytes : List UInt8
  extent : Extent3D
  view_ty : ImageViewType
  format : Format
  name : String
  next_accesses : List AccessType
  next_layout : ImageLayout
  mip_levels : Nat
  deriving DecidableEq, Repr

/-- The image-creation info built by `load_image_from_bytes`: the image type
is inferred from the requested view type via `ty_from_view_ty`, and the usage
comes from `loadImageUsage`. Tiling is the Vulkan default (optimal). -/
def loadImageCreateInfo (d : LoadImageDescriptor) : ImageCreateInfo :=
  { imageType := ty_from_view_ty d.view_ty, format := d.format, extent := d.extent,
    mipLevels := d.mip_levels, arrayLayers := 1, samples := 1, tiling := .optimal,
    usage := loadImageUsage d.mip_levels }

/-- Result of `load_image_from_bytes`: the recorded command list, the
allocator actions performed, and the returned `(Image, Buffer)` pair, whose
second component is the staging buffer. -/
structure LoadImageResult where
  cmds : List Cmd
  allocActions : List AllocAction
  image : ImageModel
  staging : BufferModel
  deriving Repr

/-- Embedding of `load_image_from_bytes`: create the staging buffer from the
bytes, create the image (allocating device-local memory), transition the full
resource to transfer-write with contents discarded, copy the staging buffer
into mip level 0, then either transition the whole resource to the caller
state (`mip_levels == 1`) or transition level 0 to transfer-read and run
`generate_mips`. The staging buffer is part of the returned value and no
allocator free is performed. -/
def load_image_from_bytes (d : LoadImageDescriptor) : LoadImageResult :=
  let staging := Buffer.new d.bytes (d.name ++ " staging buffer") [.transferSrc]
  let info := loadImageCreateInfo d
  let full := fullColorRange d.mip_levels
  let initBarrier : Cmd := .pipelineBarrier
    [{ previousAccesses := [], nextAccesses := [.TransferWrite], nextLayout := .Optimal,
       range := full, discardContents := true }]
  let copyCmd : Cmd := .copyBufferToImage
    { bufferRowLength := d.extent.width, bufferImageHeight := d.extent.height,
      imageSubresource := { aspectMask := .color, mipLevel := 0, baseArrayLayer := 0,
                            layerCount := 1 },
      imageExtent := d.extent }
  let tailCmds : List Cmd :=
    if 1 < d.mip_levels then
      Cmd.pipelineBarrier
        [{ previousAccesses := [.TransferWrite], nextAccesses := [.TransferRead],
           nextLayout := .Optimal, range := mipRange 0, discardContents := false }] ::
        generate_mips (u32AsI32 d.extent.width) (u32AsI32 d.extent.height) d.mip_levels
          d.next_accesses d.next_layout
    else
      [Cmd.pipelineBarrier
        [{ previousAccesses := [.TransferWrite], nextAccesses := d.next_accesses,
           nextLayout := d.next_layout, range := full, discardContents := false }]]
  { cmds := initBarrier :: copyCmd :: tailCmds
    allocActions := [.allocate (d.name ++ " staging buffer") .CpuToGpu true,
                     .allocate d.name .GpuOnly false]
    image := { createInfo := info, viewType := d.view_ty, viewRange := full }
    staging := staging }

/-- Parameters of `Image::new` (the `ImageDescriptor` struct). Note that it
carries no view type: plain creation cannot request one. -/
structure ImageDescriptor where
  width : Nat
  height : Nat
  name : String
  format : Format
  mip_levels : Nat
  usage : List ImageUsage
  next_accesses : List AccessType
  next_layout : ImageLayout
  deriving DecidableEq, Repr

/-- The image-creation info built by `Image::new`: the image type is the
hardcoded `TYPE_2D` and the usage is `TRANSFER_SRC | usage`. -/
def imageNewCreateInfo (d : ImageDescriptor) : ImageCreateInfo :=
  { imageType := ImageType.ty2D, format := d.format,
    extent := { width := d.width, height := d.height, depth := 1 },
    mipLevels := d.mip_levels, arrayLayers := 1, samples := 1, tiling := .optimal,
    usage := ImageUsage.transferSrc :: d.usage }

/-- The aspect mask chosen by `Image::new` (depth for `D32_SFLOAT`, color
otherwise). -/
def imageNewAspect (d : ImageDescriptor) : AspectFlags :=
  if d.format = Format.D32_SFLOAT then .depth else .color

/-- The full-resource subresource range built by `Image::new`. -/
def imageNewSubresourceRange (d : ImageDescriptor) : ImageSubresourceRange :=
  { aspectMask := imageNewAspect d, baseMipLevel := 0, levelCount := d.mip_levels,
    layerCount := 1 }

/-- The initial barrier recorded by `Image::new`: from the no-prior-access
state to the caller state, all levels, contents discarded. -/
def imageNewBarrier (d : ImageDescriptor) : Cmd :=
  .pipelineBarrier
    [{ previousAccesses := [.Nothing], nextAccesses := d.next_accesses,
       nextLayout := d.next_layout, range := imageNewSubresourceRange d,
       discardContents := true }]

/-- Embedding of `Image::new`: the created image (with its hardcoded 2D view)
and the recorded command list. -/
def Image.new (d : ImageDescriptor) : ImageModel × List Cmd :=
  ({ createInfo := imageNewCreateInfo d, viewType := ImageViewType.ty2D,
     viewRange := imageNewSubresourceRange d },
   [imageNewBarrier d])

/-- A concrete plain-creation descriptor, used for concrete scenarios. -/
def sampleImageDescriptor : ImageDescriptor :=
  { width := 64, height := 64, name := "plain", format := .R8G8B8A8_UNORM, mip_levels := 1,
    usage := [.sampled], next_accesses := [.AnyShaderReadSampledImageOrUniformTexelBuffer],
    next_layout := .Optimal }

/-- A concrete from-bytes descriptor requesting a 3D view, used to show that
view-type dimensionality inference happens in `load_image_from_bytes`. -/
def sample3DLoadDescriptor : LoadImageDescriptor :=
  { bytes := [0, 0, 0, 0], extent := ⟨1, 1, 4⟩, view_ty := .ty3D,
    format := .R8G8B8A8_UNORM, name := "vol",
    next_accesses := [.AnyShaderReadSampledImageOrUniformTexelBuffer],
    next_layout := .Optimal, mip_levels := 1 }

/-- A concrete from-bytes descriptor with a single mip level, used to show
that such an image is created without `TRANSFER_SRC` usage. -/
def sampleSingleMipLoadDescriptor : LoadImageDescriptor :=
  { bytes := [1, 2, 3, 4], extent := ⟨1, 1, 1⟩, view_ty := .ty2D,
    format := .R8G8B8A8_UNORM, name := "flat",
    next_accesses := [.AnyShaderReadSampledImageOrUniformTexelBuffer],
    next_layout := .Optimal, mip_levels := 1 }

/-- A concrete from-bytes descriptor with two mip levels. -/
def sampleMippedLoadDescriptor : LoadImageDescriptor :=
  { bytes := [1, 2, 3, 4, 5, 6, 7, 8, 9, 10, 11, 12, 13, 14, 15, 16],
    extent := ⟨2, 2, 1⟩, view_ty := .ty2D, format := .R8G8B8A8_UNORM, name := "mipped",
    next_accesses := [.AnyShaderReadSampledImageOrUniformTexelBuffer],
    next_layout := .Optimal, mip_levels := 2 }

/-- Model of a `gpu_allocator` allocation as seen by `Buffer::write_mapped`:
`mapped` is `some data` when the memory is host-mapped (so
`mapped_slice_mut()` returns the slice) and `none` otherwise. -/
structure AllocationModel where
  mapped : Option (List UInt8)
  deriving DecidableEq, Repr

/-- Outcome of `Buffer::write_mapped`: success, the tagged not-mapped error,
or a Rust slice-indexing panic. -/
inductive WriteOutcome where
  | ok
  | notMappedError
  | panicked
  deriving DecidableEq, Repr

/-- Overwrite `data[offset .. offset + bytes.length)` with `bytes`
(`copy_from_slice` on the subslice). -/
def overwriteRange (data : List UInt8) (offset : Nat) (bytes : List UInt8) : List UInt8 :=
  data.take offset ++ bytes ++ data.drop (offset + bytes.length)

/-- Embedding of `Buffer::write_mapped`: when the allocation is not
host-mapped the tagged error is returned and the allocation is unchanged;
otherwise the Rust subslice `slice[offset..offset + bytes.len()]` panics when
the range exceeds the mapped length, and the bytes are copied on success. -/
def write_mapped (alloc : AllocationModel) (bytes : List UInt8) (offset : Nat) :
    WriteOutcome × AllocationModel :=
  match alloc.mapped with
  | none => (.notMappedError, alloc)
  | some data =>
    if offset + bytes.length ≤ data.length then
      (.ok, { mapped := some (overwriteRange data offset bytes) })
    else
      (.panicked, alloc)

/-- A concrete unmapped allocation. -/
def unmappedAllocation : AllocationModel := { mapped := none }

/-- A concrete host-mapped allocation of three bytes. -/
def mappedAllocation3 : AllocationModel := { mapped := some [0, 0, 0] }

inductive ColorSpace where
  | SRGB_NONLINEAR
  | other
  deriving DecidableEq, Repr

structure SurfaceFormat where
  format : Format
  colorSpace : ColorSpace
  deriving DecidableEq, Repr

/-- Model of `vk::PhysicalDeviceType` as ranked by the selector. -/
inductive DeviceType where
  | DiscreteGpu
  | IntegratedGpu
  | VirtualGpu
  | Cpu
  | Other
  deriving DecidableEq, Repr

/-- Per-index queue family capabilities: the graphics flag from the queue
family properties, and the per-index surface-support query result. -/
structure QueueFamily where
  supportsGraphics : Bool
  supportsPresent : Bool
  deriving DecidableEq, Repr

/-- The capability surface of one enumerated physical device as queried by
`select_physical_device`. -/
structure PhysicalDevice where
  name : String
  deviceType : DeviceType
  queueFamilies : List QueueFamily
  surfaceFormats : List SurfaceFormat
  extensions : List String
  deriving DecidableEq, Repr

/-- A qualifying candidate: the device plus its chosen queue family index and
surface format. -/
structure Candidate where
  device : PhysicalDevice
  queueFamily : Nat
  surfaceFormat : SurfaceFormat
  deriving DecidableEq, Repr

/-- The queue-family search: position of the first family that both
advertises graphics and can present to the surface. -/
def findQueueFamily (d : PhysicalDevice) : Option Nat :=
  d.queueFamilies.findIdx? (fun q => q.supportsGraphics && q.supportsPresent)

/-- The surface-format choice: the desired format with SRGB-nonlinear color
space if present, else the first reported format. -/
def chooseSurfaceFormat (desired : Format) (d : PhysicalDevice) : Option SurfaceFormat :=
  match d.surfaceFormats.find? (fun sf =>
      decide (sf.format = desired) && decide (sf.colorSpace = ColorSpace.SRGB_NONLINEAR)) with
  | some sf => some sf
  | none => d.surfaceFormats.head?

/-- The extension check: every required extension name must appear in the
device's supported extension list. -/
def hasRequiredExtensions (required : List String) (d : PhysicalDevice) : Bool :=
  required.all (fun e => d.extensions.contains e)

/-- The per-device body of the selection `filter_map`: queue family, then
surface format, then the extension check; any failure disqualifies the
device. -/
def checkDevice (required : List String) (desired : Format) (d : PhysicalDevice) :
    Option Candidate :=
  match findQueueFamily d with
  | none => none
  | some qf =>
    match chooseSurfaceFormat desired d with
    | none => none
    | some sf =>
      if hasRequiredExtensions required d then
        some { device := d, queueFamily := qf, surfaceFormat := sf }
      else none

/-- The device-type preference ranking used as the `max_by_key` key. -/
def typeScore (t : DeviceType) : Nat :=
  match t with
  | .DiscreteGpu => 2
  | .IntegratedGpu => 1
  | _ => 0

/-- Rust's `Iterator::max_by_key`: the maximum under `key`, returning the
LAST maximal element when several are equally maximal, and `none` on an empty
iterator. -/
def maxByKeyLast {α : Type} (key : α → Nat) : List α → Option α
  | [] => none
  | x :: xs => some (xs.foldl (fun best y => if key best ≤ key y then y else best) x)

/-- Embedding of `select_physical_device` (the `Ok` path of enumeration):
filter-map every device through the qualification checks, then pick the
maximum by device-type score. -/
def select_physical_device (required : List String) (desired : Format)
    (devices : List PhysicalDevice) : Option Candidate :=
  maxByKeyLast (fun c => typeScore c.device.deviceType)
    (devices.filterMap (checkDevice required desired))

/-- A queue family with graphics and present support. -/
def qfGP : QueueFamily := { supportsGraphics := true, supportsPresent := true }

/-- The desired surface format with SRGB-nonlinear color space. -/
def sfDesired : SurfaceFormat := { format := .B8G8R8A8_SRGB, colorSpace := .SRGB_NONLINEAR }

/-- A fully qualifying discrete GPU. -/
def deviceA : PhysicalDevice :=
  { name := "a", deviceType := .DiscreteGpu, queueFamilies := [qfGP],
    surfaceFormats := [sfDesired], extensions := ["VK_KHR_swapchain"] }

/-- A second fully qualifying discrete GPU, later in enumeration order. -/
def deviceB : PhysicalDevice :=
  { name := "b", deviceType := .DiscreteGpu, queueFamilies := [qfGP],
    surfaceFormats := [sfDesired], extensions := ["VK_KHR_swapchain"] }

/-- A discrete GPU that supports no extensions. -/
def deviceMissingExt : PhysicalDevice :=
  { name := "noext", deviceType := .DiscreteGpu, queueFamilies := [qfGP],
    surfaceFormats := [sfDesired], extensions := [] }

/-- The candidate produced by `deviceA`. -/
def candidateA : Candidate := { device := deviceA, queueFamily := 0, surfaceFormat := sfDesired }

/-- The candidate produced by `deviceB`. -/
def candidateB : Candidate := { device := deviceB, queueFamily := 0, surfaceFormat := sfDesired }

example : (generate_mips 4 4 1 [AccessType.General] ImageLayout.Optimal) = [] := by decide

example : (blitsOf (generate_mips 4 4 3 [AccessType.General] ImageLayout.Optimal)).length = 2 := by
  decide

theorem u32sub_one (L : Nat) (h1 : 1 ≤ L) (h2 : L ≤ 4294967296) : u32sub L 1 = L - 1 := by
  unfold u32sub u32Mod
  omega

theorem u32sub_zero_one : u32sub 0 1 = 4294967295 := by decide

theorem halveClamp_natCast (n : Nat) : halveClamp (n : Int) = (natHalveClamp n : Int) := by
  have h : rustDiv (n : Int) 2 = ((n / 2 : Nat) : Int) := rfl
  simp [halveClamp, natHalveClamp, h, Nat.cast_max]

theorem halveClamp_iterate (W : Nat) (hW : 1 ≤ W) (k : Nat) :
    halveClamp^[k] (W : Int) = ((max 1 (W >>> k) : Nat) : Int) := by
  induction k with
  | zero =>
    simp only [Function.iterate_zero_apply, Nat.shiftRight_zero]
    congr 1
    omega
  | succ k ih =>
    rw [Function.iterate_succ_apply', ih, halveClamp_natCast]
    congr 1
    unfold natHalveClamp
    rw [Nat.shiftRight_succ]
    omega

theorem genMipsLoop_succ (acc : List AccessType) (lay : ImageLayout) (lastIndex : Nat)
    (i n : Nat) (w h : Int) :
    genMipsLoop acc lay lastIndex i (n + 1) w h =
      mipStep acc lay lastIndex i w h ++
        genMipsLoop acc lay lastIndex (i + 1) n (halveClamp w) (halveClamp h) := rfl

theorem genMipsLoop_eq_flatMap (acc : List AccessType) (lay : ImageLayout) (lastIndex : Nat)
    (fuel : Nat) :
    ∀ (i : Nat) (w h : Int),
      genMipsLoop acc lay lastIndex i fuel w h =
        (List.range fuel).flatMap (fun j =>
          mipStep acc lay lastIndex (i + j) (halveClamp^[j] w) (halveClamp^[j] h)) := by
  induction fuel with
  | zero =>
    intro i w h
    simp [genMipsLoop]
  | succ n ih =>
    intro i w h
    rw [genMipsLoop_succ, ih (i + 1) (halveClamp w) (halveClamp h), List.range_succ_eq_map,
      List.flatMap_cons, List.flatMap_map]
    simp only [Nat.add_zero, Function.iterate_zero_apply, Function.comp_def]
    refine congrArg (mipStep acc lay lastIndex i w h ++ ·) ?_
    refine congrArg (List.flatMap (List.range n)) (funext fun j => ?_)
    simp only [Function.iterate_succ_apply]
    have hidx : i + 1 + j = i + Nat.succ j := by omega
    rw [hidx]

theorem genMipsLoop_length (acc : List AccessType) (lay : ImageLayout) (lastIndex : Nat)
    (fuel : Nat) :
    ∀ (i : Nat) (w h : Int), (genMipsLoop acc lay lastIndex i fuel w h).length = 2 * fuel := by
  induction fuel with
  | zero => intro i w h; rfl
  | succ n ih =>
    intro i w h
    rw [genMipsLoop_succ, List.length_append, ih]
    simp [mipStep]
    omega

theorem blitsOf_append (l1 l2 : List Cmd) : blitsOf (l1 ++ l2) = blitsOf l1 ++ blitsOf l2 := by
  simp [blitsOf]

theorem copiesOf_append (l1 l2 : List Cmd) :
    copiesOf (l1 ++ l2) = copiesOf l1 ++ copiesOf l2 := by
  simp [copiesOf]

theorem barrierCount_append (l1 l2 : List Cmd) :
    barrierCount (l1 ++ l2) = barrierCount l1 + barrierCount l2 := by
  simp [barrierCount, List.countP_append]

theorem blitsOf_mipStep (acc : List AccessType) (lay : ImageLayout) (lastIndex i : Nat)
    (w h : Int) : blitsOf (mipStep acc lay lastIndex i w h) = [mipBlit i w h] := rfl

theorem copiesOf_mipStep (acc : List AccessType) (lay : ImageLayout) (lastIndex i : Nat)
    (w h : Int) : copiesOf (mipStep acc lay lastIndex i w h) = [] := rfl

theorem barrierCount_mipStep (acc : List AccessType) (lay : ImageLayout) (lastIndex i : Nat)
    (w h : Int) : barrierCount (mipStep acc lay lastIndex i w h) = 1 := rfl

theorem blitsOf_genMipsLoop (acc : List AccessType) (lay : ImageLayout) (lastIndex : Nat)
    (fuel : Nat) :
    ∀ (i : Nat) (w h : Int),
      blitsOf (genMipsLoop acc lay lastIndex i fuel w h) =
        (List.range fuel).map (fun j =>
          mipBlit (i + j) (halveClamp^[j] w) (halveClamp^[j] h)) := by
  induction fuel with
  | zero => intro i w h; rfl
  | succ n ih =>
    intro i w h
    rw [genMipsLoop_succ, blitsOf_append, blitsOf_mipStep,
      ih (i + 1) (halveClamp w) (halveClamp h), List.range_succ_eq_map, List.map_cons,
      List.map_map]
    simp only [Nat.add_zero, Function.iterate_zero_apply, Function.comp_def]
    refine congrArg ([mipBlit i w h] ++ ·) ?_
    refine congrArg (List.range n).map (funext fun j => ?_)
    simp only [Function.iterate_succ_apply]
    have hidx : i + 1 + j = i + Nat.succ j := by omega
    rw [hidx]

theorem copiesOf_genMipsLoop (acc : List AccessType) (lay : ImageLayout) (lastIndex : Nat)
    (fuel : Nat) :
    ∀ (i : Nat) (w h : Int), copiesOf (genMipsLoop acc lay lastIndex i fuel w h) = [] := by
  induction fuel with
  | zero => intro i w h; rfl
  | succ n ih =>
    intro i w h
    rw [genMipsLoop_succ, copiesOf_append, copiesOf_mipStep,
      ih (i + 1) (halveClamp w) (halveClamp h)]
    rfl

theorem barrierCount_genMipsLoop (acc : List AccessType) (lay : ImageLayout) (lastIndex : Nat)
    (fuel : Nat) :
    ∀ (i : Nat) (w h : Int), barrierCount (genMipsLoop acc lay lastIndex i fuel w h) = fuel := by
  induction fuel with
  | zero => intro i w h; rfl
  | succ n ih =>
    intro i w h
    rw [genMipsLoop_succ, barrierCount_append, barrierCount_mipStep,
      ih (i + 1) (halveClamp w) (halveClamp h)]
    omega

theorem runTrace_nil (st : Nat → LevelState) : runTrace st [] = st := rfl

theorem runTrace_append (st : Nat → LevelState) (l1 l2 : List Cmd) :
    runTrace st (l1 ++ l2) = runTrace (runTrace st l1) l2 := by
  simp [runTrace, List.foldl_append]

theorem runTrace_mipStep (st : Nat → LevelState) (acc : List AccessType) (lay : ImageLayout)
    (lastIndex i : Nat) (w h : Int) (j : Nat) :
    runTrace st (mipStep acc lay lastIndex i w h) j =
      if j = i + 1 then
        (if i + 1 = lastIndex then acc else [AccessType.TransferRead],
         if i + 1 = lastIndex then lay else ImageLayout.Optimal)
      else if j = i then (acc, lay)
      else st j := by
  simp only [runTrace, mipStep, mipBarrier, List.foldl_cons, List.foldl_nil, applyCmd,
    applyBarrier, coversLevel, mipRange]
  split_ifs <;> first | rfl | omega

theorem genMipsLoop_runTrace (acc : List AccessType) (lay : ImageLayout) (lastIndex : Nat) :
    ∀ (fuel i : Nat) (w h : Int) (st : Nat → LevelState),
      1 ≤ fuel → i + fuel = lastIndex →
      ∀ j, runTrace st (genMipsLoop acc lay lastIndex i fuel w h) j =
        if i ≤ j ∧ j ≤ lastIndex then (acc, lay) else st j := by
  intro fuel
  induction fuel with
  | zero =>
    intro i w h st h1 h2 j
    exact absurd h1 (by omega)
  | succ n ih =>
    intro i w h st h1 h2 j
    rw [genMipsLoop_succ, runTrace_append]
    rcases Nat.eq_zero_or_pos n with hn | hn
    · subst hn
      rw [show genMipsLoop acc lay lastIndex (i + 1) 0 (halveClamp w) (halveClamp h) = [] from rfl,
        runTrace_nil, runTrace_mipStep]
      have hlast : i + 1 = lastIndex := by omega
      split_ifs <;> first | rfl | omega
    · rw [ih (i + 1) (halveClamp w) (halveClamp h)
        (runTrace st (mipStep acc lay lastIndex i w h)) hn (by omega), runTrace_mipStep]
      split_ifs <;> first | rfl | omega

theorem transitionCount_append (l1 l2 : List Cmd) (acc : List AccessType) (lay : ImageLayout)
    (j : Nat) :
    transitionCount (l1 ++ l2) acc lay j =
      transitionCount l1 acc lay j + transitionCount l2 acc lay j := by
  simp [transitionCount, List.flatMap_append, List.countP_append]

theorem transitionCount_mipStep (acc : List AccessType) (lay : ImageLayout)
    (lastIndex i : Nat) (w h : Int) (j : Nat)
    (hne : ¬(acc = [AccessType.TransferRead] ∧ lay = ImageLayout.Optimal)) :
    transitionCount (mipStep acc lay lastIndex i w h) acc lay j =
      (if j = i then 1 else 0) + (if j = i + 1 ∧ i + 1 = lastIndex then 1 else 0) := by
  have hcov1 : coversLevel (mipRange i) j ↔ j = i := by
    simp only [coversLevel, mipRange]
    omega
  have hcov2 : coversLevel (mipRange (i + 1)) j ↔ j = i + 1 := by
    simp only [coversLevel, mipRange]
    omega
  simp only [transitionCount, mipStep, mipBarrier, cmdBarriers, List.flatMap_cons,
    List.flatMap_nil, List.nil_append, List.append_nil, List.countP_cons, List.countP_nil,
    decide_eq_true_eq, hcov1, hcov2, eq_self_iff_true, and_true]
  by_cases hlast : i + 1 = lastIndex
  · simp only [if_pos hlast, hlast, eq_self_iff_true, if_true, and_true]
    split_ifs <;> omega
  · simp only [if_neg hlast]
    have h1 : ¬(j = i + 1 ∧ [AccessType.TransferRead] = acc ∧ ImageLayout.Optimal = lay) :=
      fun hc => hne ⟨hc.2.1.symm, hc.2.2.symm⟩
    have h2 : ¬(j = i + 1 ∧ i + 1 = lastIndex) := fun hc => hlast hc.2
    rw [if_neg h1, if_neg h2]
    split_ifs <;> omega

theorem transitionCount_genMipsLoop (acc : List AccessType) (lay : ImageLayout)
    (lastIndex : Nat)
    (hne : ¬(acc = [AccessType.TransferRead] ∧ lay = ImageLayout.Optimal)) :
    ∀ (fuel i : Nat) (w h : Int), 1 ≤ fuel → i + fuel = lastIndex →
      ∀ j, transitionCount (genMipsLoop acc lay lastIndex i fuel w h) acc lay j =
        if i ≤ j ∧ j ≤ lastIndex then 1 else 0 := by
  intro fuel
  induction fuel with
  | zero =>
    intro i w h h1 h2 j
    exact absurd h1 (by omega)
  | succ n ih =>
    intro i w h h1 h2 j
    rw [genMipsLoop_succ, transitionCount_append,
      transitionCount_mipStep acc lay lastIndex i w h j hne]
    rcases Nat.eq_zero_or_pos n with hn | hn
    · subst hn
      rw [show transitionCount
          (genMipsLoop acc lay lastIndex (i + 1) 0 (halveClamp w) (halveClamp h)) acc lay j = 0
        from rfl]
      split_ifs <;> omega
    · rw [ih (i + 1) (halveClamp w) (halveClamp h) hn (by omega) j]
      split_ifs <;> omega

/-- C1: for an image with `mip_levels = N ≥ 2` whose level 0 is in
transfer-source-read state and levels `1..N-1` in transfer-write state,
`generate_mips` records, per loop iteration `i`, one blit of level `i` into
level `i + 1` followed by one single barrier command batching exactly two
transitions: level `i` from transfer-read to the caller's final access/layout,
and level `i + 1` from transfer-write to transfer-read (not last) or to the
caller's final state (last). Consequently at exit every level `0..N-1` is in
the caller-specified final access/layout and was transitioned to it exactly
once (assuming the caller's final state is not itself the transient
transfer-read/Optimal state). -/
theorem generate_mips_barrier_protocol (N : Nat) (acc : List AccessType) (lay : ImageLayout)
    (W H : Int) (hN : 2 ≤ N) (hN32 : N ≤ 4294967296)
    (hne : ¬(acc = [AccessType.TransferRead] ∧ lay = ImageLayout.Optimal)) :
    generate_mips W H N acc lay =
      (List.range (N - 1)).flatMap (fun i =>
        [Cmd.blitImage (mipBlit i (halveClamp^[i] W) (halveClamp^[i] H)),
         mipBarrier acc lay (N - 1) i]) ∧
    (∀ j, j < N →
      runTrace (mipInitialState N) (generate_mips W H N acc lay) j = (acc, lay)) ∧
    (∀ j, j < N → transitionCount (generate_mips W H N acc lay) acc lay j = 1) := by
  have hsub : u32sub N 1 = N - 1 := u32sub_one N (by omega) hN32
  refine ⟨?_, ?_, ?_⟩
  · rw [generate_mips, hsub, genMipsLoop_eq_flatMap]
    simp only [Nat.zero_add, mipStep]
  · intro j hj
    rw [generate_mips, hsub,
      genMipsLoop_runTrace acc lay (N - 1) (N - 1) 0 W H (mipInitialState N) (by omega)
        (by omega) j]
    rw [if_pos ⟨Nat.zero_le j, by omega⟩]
  · intro j hj
    rw [generate_mips, hsub,
      transitionCount_genMipsLoop acc lay (N - 1) hne (N - 1) 0 W H (by omega) (by omega) j]
    rw [if_pos ⟨Nat.zero_le j, by omega⟩]

theorem generate_mips_barrier_protocol_witness :
    runTrace (mipInitialState 3)
        (generate_mips 8 8 3 [AccessType.AnyShaderReadSampledImageOrUniformTexelBuffer]
          ImageLayout.Optimal) 0 =
      ([AccessType.AnyShaderReadSampledImageOrUniformTexelBuffer], ImageLayout.Optimal) ∧
    runTrace (mipInitialState 3)
        (generate_mips 8 8 3 [AccessType.AnyShaderReadSampledImageOrUniformTexelBuffer]
          ImageLayout.Optimal) 1 =
      ([AccessType.AnyShaderReadSampledImageOrUniformTexelBuffer], ImageLayout.Optimal) ∧
    runTrace (mipInitialState 3)
        (generate_mips 8 8 3 [AccessType.AnyShaderReadSampledImageOrUniformTexelBuffer]
          ImageLayout.Optimal) 2 =
      ([AccessType.AnyShaderReadSampledImageOrUniformTexelBuffer], ImageLayout.Optimal) ∧
    transitionCount
        (generate_mips 8 8 3 [AccessType.AnyShaderReadSampledImageOrUniformTexelBuffer]
          ImageLayout.Optimal)
        [AccessType.AnyShaderReadSampledImageOrUniformTexelBuffer] ImageLayout.Optimal 2 = 1 := by
  have h := generate_mips_barrier_protocol 3
    [AccessType.AnyShaderReadSampledImageOrUniformTexelBuffer] ImageLayout.Optimal 8 8
    (by omega) (by omega) (by decide)
  exact ⟨h.2.1 0 (by omega), h.2.1 1 (by omega), h.2.1 2 (by omega), h.2.2 2 (by omega)⟩

/-- C3: for base extent `(W, H)` with `W, H ≥ 1` and `L ≥ 1` mip levels,
`generate_mips` records exactly `L - 1` blits, and the blit of iteration `i`
targets level `i + 1` with destination extent
`max 1 (W >>> (i + 1)) × max 1 (H >>> (i + 1))`. -/
theorem generate_mips_blit_extents (W H L : Nat) (acc : List AccessType) (lay : ImageLayout)
    (hW : 1 ≤ W) (hH : 1 ≤ H) (hL : 1 ≤ L) (hL32 : L ≤ 4294967296) :
    (blitsOf (generate_mips (W : Int) (H : Int) L acc lay)).length = L - 1 ∧
    (blitsOf (generate_mips (W : Int) (H : Int) L acc lay)).map
        (fun b => (b.dstSubresource.mipLevel, b.dstOffsets.2)) =
      (List.range (L - 1)).map (fun i =>
        (i + 1, Offset3D.mk ((max 1 (W >>> (i + 1)) : Nat) : Int)
          ((max 1 (H >>> (i + 1)) : Nat) : Int) 1)) := by
  have hsub : u32sub L 1 = L - 1 := u32sub_one L hL hL32
  have hblits : blitsOf (generate_mips (W : Int) (H : Int) L acc lay) =
      (List.range (L - 1)).map (fun j =>
        mipBlit j (halveClamp^[j] (W : Int)) (halveClamp^[j] (H : Int))) := by
    rw [generate_mips, hsub, blitsOf_genMipsLoop]
    simp only [Nat.zero_add]
  constructor
  · rw [hblits]
    simp
  · rw [hblits, List.map_map]
    refine congrArg (List.range (L - 1)).map (funext fun j => ?_)
    show (j + 1, Offset3D.mk (halveClamp (halveClamp^[j] (W : Int)))
      (halveClamp (halveClamp^[j] (H : Int))) 1) = _
    simp only [← Function.iterate_succ_apply' halveClamp]
    rw [halveClamp_iterate W hW, halveClamp_iterate H hH]

theorem generate_mips_blit_extents_witness :
    (blitsOf (generate_mips ((256 : Nat) : Int) ((256 : Nat) : Int) 4
        [AccessType.AnyShaderReadSampledImageOrUniformTexelBuffer]
        ImageLayout.Optimal)).length = 4 - 1 ∧
    (blitsOf (generate_mips ((256 : Nat) : Int) ((256 : Nat) : Int) 4
        [AccessType.AnyShaderReadSampledImageOrUniformTexelBuffer] ImageLayout.Optimal)).map
        (fun b => (b.dstSubresource.mipLevel, b.dstOffsets.2)) =
      [(1, Offset3D.mk 128 128 1), (2, Offset3D.mk 64 64 1), (3, Offset3D.mk 32 32 1)] := by
  have h := generate_mips_blit_extents 256 256 4
    [AccessType.AnyShaderReadSampledImageOrUniformTexelBuffer] ImageLayout.Optimal
    (by omega) (by omega) (by omega) (by omega)
  refine ⟨h.1, ?_⟩
  rw [h.2]
  decide

/-- C9: for every `mip_levels ≥ 1` the `generate_mips` loop runs exactly
`mip_levels - 1` iterations, recording one blit and one batched barrier command
each; for `mip_levels = 0` the `u32` loop bound `mip_levels - 1` underflows to
`4294967295` rather than the mathematical value, so the function needs the
precondition `mip_levels ≥ 1`. -/
theorem generate_mips_iteration_count (L : Nat) (W H : Int) (acc : List AccessType)
    (lay : ImageLayout) (hL : 1 ≤ L) (hL32 : L ≤ 4294967296) :
    u32sub L 1 = L - 1 ∧
    (generate_mips W H L acc lay).length = 2 * (L - 1) ∧
    (blitsOf (generate_mips W H L acc lay)).length = L - 1 ∧
    barrierCount (generate_mips W H L acc lay) = L - 1 ∧
    u32sub 0 1 = 4294967295 := by
  have hsub : u32sub L 1 = L - 1 := u32sub_one L hL hL32
  refine ⟨hsub, ?_, ?_, ?_, u32sub_zero_one⟩
  · rw [generate_mips, hsub, genMipsLoop_length]
  · rw [generate_mips, hsub, blitsOf_genMipsLoop]
    simp
  · rw [generate_mips, hsub, barrierCount_genMipsLoop]

theorem generate_mips_iteration_count_witness :
    u32sub 4 1 = 4 - 1 ∧
    (generate_mips 16 16 4 [AccessType.General] ImageLayout.General).length = 2 * (4 - 1) ∧
    (blitsOf (generate_mips 16 16 4 [AccessType.General] ImageLayout.General)).length = 4 - 1 ∧
    barrierCount (generate_mips 16 16 4 [AccessType.General] ImageLayout.General) = 4 - 1 ∧
    u32sub 0 1 = 4294967295 :=
  generate_mips_iteration_count 4 16 16 [AccessType.General] ImageLayout.General
    (by omega) (by omega)

theorem copiesOf_cons_barrier (bs : List ImageBarrier) (l : List Cmd) :
    copiesOf (Cmd.pipelineBarrier bs :: l) = copiesOf l := rfl

theorem copiesOf_cons_copy (r : BufferImageCopy) (l : List Cmd) :
    copiesOf (Cmd.copyBufferToImage r :: l) = r :: copiesOf l := rfl

theorem copiesOf_nil : copiesOf [] = [] := rfl

/-- C2: `load_image_from_bytes` copies the staging buffer into mip level 0
only; afterwards, with `mip_levels == 1` the whole resource is transitioned in
one barrier from transfer-write to the caller state, while with
`mip_levels > 1` only level 0 is transitioned to transfer-source-read before
`generate_mips` runs; and the staging buffer is returned to the caller, with
no allocator free performed internally. -/
theorem load_image_from_bytes_protocol (d : LoadImageDescriptor) :
    (copiesOf (load_image_from_bytes d).cmds).map (fun r => r.imageSubresource.mipLevel) =
      [0] ∧
    (load_image_from_bytes d).cmds =
      Cmd.pipelineBarrier
          [{ previousAccesses := [], nextAccesses := [.TransferWrite],
             nextLayout := .Optimal, range := fullColorRange d.mip_levels,
             discardContents := true }] ::
      Cmd.copyBufferToImage
          { bufferRowLength := d.extent.width,
            bufferImageHeight := d.extent.height,
            imageSubresource := { aspectMask := .color, mipLevel := 0, baseArrayLayer := 0,
                                  layerCount := 1 },
            imageExtent := d.extent } ::
      (if 1 < d.mip_levels then
        Cmd.pipelineBarrier
            [{ previousAccesses := [.TransferWrite],
               nextAccesses := [.TransferRead], nextLayout := .Optimal, range := mipRange 0,
               discardContents := false }] ::
          generate_mips (u32AsI32 d.extent.width) (u32AsI32 d.extent.height) d.mip_levels
            d.next_accesses d.next_layout
      else
        [Cmd.pipelineBarrier
            [{ previousAccesses := [.TransferWrite],
               nextAccesses := d.next_accesses, nextLayout := d.next_layout,
               range := fullColorRange d.mip_levels, discardContents := false }]]) ∧
    (load_image_from_bytes d).staging =
      Buffer.new d.bytes (d.name ++ " staging buffer") [.transferSrc] ∧
    (load_image_from_bytes d).allocActions.all AllocAction.isAllocate = true := by
  refine ⟨?_, rfl, rfl, rfl⟩
  by_cases hm : 1 < d.mip_levels
  · have hcopies : copiesOf (load_image_from_bytes d).cmds =
        [{ bufferRowLength := d.extent.width, bufferImageHeight := d.extent.height,
           imageSubresource := { aspectMask := .color, mipLevel := 0, baseArrayLayer := 0,
                                 layerCount := 1 },
           imageExtent := d.extent }] := by
      simp only [load_image_from_bytes, if_pos hm]
      rw [copiesOf_cons_barrier, copiesOf_cons_copy, copiesOf_cons_barrier, generate_mips,
        copiesOf_genMipsLoop]
    rw [hcopies]
    rfl
  · have hcopies : copiesOf (load_image_from_bytes d).cmds =
        [{ bufferRowLength := d.extent.width, bufferImageHeight := d.extent.height,
           imageSubresource := { aspectMask := .color, mipLevel := 0, baseArrayLayer := 0,
                                 layerCount := 1 },
           imageExtent := d.extent }] := by
      simp only [load_image_from_bytes, if_neg hm]
      rw [copiesOf_cons_barrier, copiesOf_cons_copy, copiesOf_cons_barrier, copiesOf_nil]
    rw [hcopies]
    rfl

/-- C5 (amended): view-type dimensionality inference happens in
`load_image_from_bytes` via `ty_from_view_ty` (array and cube view variants
map to their base dimensionality), while `Image::new` takes no view type and
always creates a `TYPE_2D` image with a `TYPE_2D` view. -/
theorem image_dimensionality_inference (d : LoadImageDescriptor) (p : ImageDescriptor) :
    (load_image_from_bytes d).image.createInfo.imageType = ty_from_view_ty d.view_ty ∧
    (Image.new p).1.createInfo.imageType = ImageType.ty2D ∧
    (Image.new p).1.viewType = ImageViewType.ty2D ∧
    ty_from_view_ty .ty1D = .ty1D ∧ ty_from_view_ty .ty1DArray = .ty1D ∧
    ty_from_view_ty .ty2D = .ty2D ∧ ty_from_view_ty .ty2DArray = .ty2D ∧
    ty_from_view_ty .cube = .ty2D ∧ ty_from_view_ty .cubeArray = .ty2D ∧
    ty_from_view_ty .ty3D = .ty3D :=
  ⟨rfl, rfl, rfl, rfl, rfl, rfl, rfl, rfl, rfl, rfl⟩

/-- C5 counterexample: plain creation via `Image::new` does not infer the
native image's dimensionality from a requested view type. Its descriptor
carries no view type, and at a concrete descriptor both the image type and
the created view are the hardcoded 2D values, whereas the inference function
`ty_from_view_ty` (and the from-bytes path that actually applies it) does
produce 3D for a 3D view request. -/
theorem imageNew_dimensionality_counterexample :
    (Image.new sampleImageDescriptor).1.createInfo.imageType = ImageType.ty2D ∧
    (Image.new sampleImageDescriptor).1.viewType = ImageViewType.ty2D ∧
    (load_image_from_bytes sample3DLoadDescriptor).image.createInfo.imageType =
      ImageType.ty3D ∧
    ImageType.ty3D ≠ ImageType.ty2D := by
  refine ⟨rfl, rfl, rfl, ?_⟩
  decide

/-- C6 (amended): `Image::new` always includes `TRANSFER_SRC` in the created
image's usage regardless of the requested usage, but `load_image_from_bytes`
includes `TRANSFER_SRC` exactly when `mip_levels > 1`. -/
theorem image_usage_transfer_src (p : ImageDescriptor) (d : LoadImageDescriptor) :
    ImageUsage.transferSrc ∈ (Image.new p).1.createInfo.usage ∧
    (ImageUsage.transferSrc ∈ (load_image_from_bytes d).image.createInfo.usage ↔
      1 < d.mip_levels) := by
  constructor
  · exact List.mem_cons_self _ _
  · show ImageUsage.transferSrc ∈ loadImageUsage d.mip_levels ↔ _
    unfold loadImageUsage
    by_cases hm : 1 < d.mip_levels
    · simp [hm]
    · simp [hm]

/-- C6 counterexample: an image created by `load_image_from_bytes` with
`mip_levels = 1` does not have `TRANSFER_SRC` in its usage flags, so not every
image created by the allocator is blit-source-capable. -/
theorem image_usage_transfer_src_counterexample :
    ImageUsage.transferSrc ∉
      (load_image_from_bytes sampleSingleMipLoadDescriptor).image.createInfo.usage := by
  decide

theorem foldl_max_last {α : Type} (key : α → Nat) :
    ∀ (l : List α) (b r : α),
      l.foldl (fun best y => if key best ≤ key y then y else best) b = r →
      (r = b ∧ ∀ y ∈ l, key y < key b) ∨
      (∃ pre post, l = pre ++ r :: post ∧ key b ≤ key r ∧
        (∀ y ∈ pre, key y ≤ key r) ∧ (∀ y ∈ post, key y < key r)) := by
  intro l
  induction l with
  | nil =>
    intro b r h
    left
    refine ⟨h.symm, ?_⟩
    intro y hy
    cases hy
  | cons x xs ih =>
    intro b r h
    rw [List.foldl_cons] at h
    by_cases hx : key b ≤ key x
    · rw [if_pos hx] at h
      rcases ih x r h with ⟨hrb, hall⟩ | ⟨pre, post, heq, hbr, hpre, hpost⟩
      · right
        refine ⟨[], xs, ?_, ?_, ?_, ?_⟩
        · rw [hrb]
          rfl
        · rw [hrb]
          exact hx
        · intro y hy
          cases hy
        · intro y hy
          rw [hrb]
          exact hall y hy
      · right
        refine ⟨x :: pre, post, ?_, ?_, ?_, hpost⟩
        · rw [heq]
          rfl
        · exact le_trans hx hbr
        · intro y hy
          rcases List.mem_cons.mp hy with hxy | hyp
          · rw [hxy]
            exact hbr
          · exact hpre y hyp
    · rw [if_neg hx] at h
      rcases ih b r h with ⟨hrb, hall⟩ | ⟨pre, post, heq, hbr, hpre, hpost⟩
      · left
        refine ⟨hrb, ?_⟩
        intro y hy
        rcases List.mem_cons.mp hy with hxy | hyp
        · rw [hxy]
          omega
        · exact hall y hyp
      · right
        refine ⟨x :: pre, post, ?_, hbr, ?_, hpost⟩
        · rw [heq]
          rfl
        · intro y hy
          rcases List.mem_cons.mp hy with hxy | hyp
          · rw [hxy]
            omega
          · exact hpre y hyp

theorem checkDevice_some (required : List String) (desired : Format) (d : PhysicalDevice)
    (c : Candidate) (h : checkDevice required desired d = some c) :
    c.device = d ∧ hasRequiredExtensions required d = true := by
  unfold checkDevice at h
  split at h
  · cases h
  · split at h
    · cases h
    · split_ifs at h with hreq
      cases h
      exact ⟨rfl, hreq⟩

theorem maxByKeyLast_spec {α : Type} (key : α → Nat) (l : List α) (r : α)
    (h : maxByKeyLast key l = some r) :
    ∃ pre post, l = pre ++ r :: post ∧ (∀ y ∈ pre, key y ≤ key r) ∧
      (∀ y ∈ post, key y < key r) := by
  cases l with
  | nil => cases h
  | cons x xs =>
    rw [maxByKeyLast, Option.some.injEq] at h
    rcases foldl_max_last key xs x r h with ⟨hrb, hall⟩ | ⟨pre, post, heq, hbr, hpre, hpost⟩
    · refine ⟨[], xs, ?_, ?_, ?_⟩
      · rw [hrb]
        rfl
      · intro y hy
        cases hy
      · intro y hy
        rw [hrb]
        exact hall y hy
    · refine ⟨x :: pre, post, ?_, ?_, hpost⟩
      · rw [heq]
        rfl
      · intro y hy
        rcases List.mem_cons.mp hy with hxy | hyp
        · rw [hxy]
          exact hbr
        · exact hpre y hyp

/-- C4 (amended): `select_physical_device` ranks qualifying candidates only by
device type (discrete above integrated above anything else, via `typeScore`),
and when several qualifying candidates share the highest rank the one LATEST
in enumeration order is selected (Rust's `max_by_key` returns the last maximal
element): the selected candidate qualifies, its score is maximal, and it is
the last qualifying candidate whose score reaches that maximum. -/
theorem select_physical_device_ranking (required : List String) (desired : Format)
    (devices : List PhysicalDevice) (c : Candidate)
    (h : select_physical_device required desired devices = some c) :
    c ∈ devices.filterMap (checkDevice required desired) ∧
    (∀ y ∈ devices.filterMap (checkDevice required desired),
      typeScore y.device.deviceType ≤ typeScore c.device.deviceType) ∧
    ((devices.filterMap (checkDevice required desired)).filter (fun y =>
        decide (typeScore c.device.deviceType ≤ typeScore y.device.deviceType))).getLast? =
      some c := by
  have hsel : maxByKeyLast (fun c => typeScore c.device.deviceType)
      (devices.filterMap (checkDevice required desired)) = some c := h
  rcases maxByKeyLast_spec (fun c => typeScore c.device.deviceType)
      (devices.filterMap (checkDevice required desired)) c hsel with
    ⟨pre, post, heq, hpre, hpost⟩
  refine ⟨?_, ?_, ?_⟩
  · rw [heq]
    exact List.mem_append_right _ (List.mem_cons_self _ _)
  · intro y hy
    rw [heq] at hy
    rcases List.mem_append.mp hy with hyp | hyc
    · exact hpre y hyp
    · rcases List.mem_cons.mp hyc with hyc | hyp
      · rw [hyc]
      · exact le_of_lt (hpost y hyp)
  · rw [heq, List.filter_append, List.filter_cons]
    have hcc : decide (typeScore c.device.deviceType ≤ typeScore c.device.deviceType) = true := by
      simp
    rw [if_pos hcc]
    have hpostnil : post.filter (fun y =>
        decide (typeScore c.device.deviceType ≤ typeScore y.device.deviceType)) = [] := by
      rw [List.filter_eq_nil_iff]
      intro y hy
      have := hpost y hy
      simp only [decide_eq_true_eq]
      omega
    rw [hpostnil, List.getLast?_append]
    rfl

theorem select_physical_device_ranking_witness :
    candidateB ∈ [deviceA, deviceB].filterMap (checkDevice [] Format.B8G8R8A8_SRGB) ∧
    (([deviceA, deviceB].filterMap (checkDevice [] Format.B8G8R8A8_SRGB)).filter (fun y =>
        decide (typeScore candidateB.device.deviceType ≤
          typeScore y.device.deviceType))).getLast? = some candidateB := by
  have h := select_physical_device_ranking [] Format.B8G8R8A8_SRGB [deviceA, deviceB]
    candidateB (by decide)
  exact ⟨h.1, h.2.2⟩

/-- C4 counterexample: with two equally qualifying discrete GPUs, the selector
picks the one LATEST in enumeration order (`deviceB`), not the earliest
(`deviceA`), because Rust's `max_by_key` returns the last maximal element. -/
theorem select_physical_device_tie_counterexample :
    select_physical_device [] Format.B8G8R8A8_SRGB [deviceA, deviceB] = some candidateB ∧
    candidateB.device = deviceB ∧
    deviceB ≠ deviceA := by
  refine ⟨by decide, rfl, by decide⟩

/-- C7: a device missing any single required extension is never selected — the
selected candidate's device supports every required extension, so it cannot be
any device that lacks one. -/
theorem select_physical_device_extensions (required : List String) (desired : Format)
    (devices : List PhysicalDevice) (c : Candidate)
    (h : select_physical_device required desired devices = some c) :
    (∀ e ∈ required, e ∈ c.device.extensions) ∧
    (∀ d : PhysicalDevice, (∃ e ∈ required, e ∉ d.extensions) → c.device ≠ d) := by
  have hmem : c ∈ devices.filterMap (checkDevice required desired) := by
    have hsel : maxByKeyLast (fun c => typeScore c.device.deviceType)
        (devices.filterMap (checkDevice required desired)) = some c := h
    rcases maxByKeyLast_spec (fun c => typeScore c.device.deviceType)
        (devices.filterMap (checkDevice required desired)) c hsel with
      ⟨pre, post, heq, -, -⟩
    rw [heq]
    exact List.mem_append_right _ (List.mem_cons_self _ _)
  rcases List.mem_filterMap.mp hmem with ⟨d0, hd0, hcheck⟩
  rcases checkDevice_some required desired d0 c hcheck with ⟨hdev, hreq⟩
  have hext : (∀ e ∈ required, e ∈ c.device.extensions) := by
    intro e he
    rw [hdev]
    have hall := List.all_eq_true.mp hreq e he
    exact List.elem_iff.mp hall
  refine ⟨hext, ?_⟩
  intro d hd hne
  rcases hd with ⟨e, he, hemiss⟩
  exact hemiss (hne ▸ hext e he)

theorem select_physical_device_extensions_witness :
    "VK_KHR_swapchain" ∈ candidateA.device.extensions ∧
    candidateA.device ≠ deviceMissingExt := by
  have h := select_physical_device_extensions ["VK_KHR_swapchain"] Format.B8G8R8A8_SRGB
    [deviceMissingExt, deviceA] candidateA (by decide)
  exact ⟨h.1 _ (by decide), h.2 deviceMissingExt ⟨"VK_KHR_swapchain", by decide, by decide⟩⟩

/-- C8: when a buffer's allocation is not host-mapped, `write_mapped` returns
the tagged not-mapped error without performing any memory write, and the
allocation (hence the buffer's contents) is unchanged on that error path. -/
theorem write_mapped_not_mapped (alloc : AllocationModel) (bytes : List UInt8) (offset : Nat)
    (h : alloc.mapped = none) :
    write_mapped alloc bytes offset = (WriteOutcome.notMappedError, alloc) := by
  unfold write_mapped
  rw [h]

theorem write_mapped_not_mapped_witness :
    write_mapped unmappedAllocation [1, 2] 0 =
      (WriteOutcome.notMappedError, unmappedAllocation) :=
  write_mapped_not_mapped unmappedAllocation [1, 2] 0 rfl

/-- C10: for a host-mapped allocation, `write_mapped` returns Ok exactly when
`offset + bytes.len()` fits within the mapped slice; an out-of-range request
panics in the slice indexing instead of returning the tagged error result,
whose error branch covers only the not-mapped case. -/
theorem write_mapped_range_panic (alloc : AllocationModel) (data bytes : List UInt8)
    (offset : Nat) (h : alloc.mapped = some data) :
    ((write_mapped alloc bytes offset).1 = WriteOutcome.ok ↔
      offset + bytes.length ≤ data.length) ∧
    (data.length < offset + bytes.length →
      (write_mapped alloc bytes offset).1 = WriteOutcome.panicked ∧
      (write_mapped alloc bytes offset).1 ≠ WriteOutcome.notMappedError) := by
  have hred : write_mapped alloc bytes offset =
      if offset + bytes.length ≤ data.length then
        (WriteOutcome.ok, { mapped := some (overwriteRange data offset bytes) })
      else (WriteOutcome.panicked, alloc) := by
    unfold write_mapped
    rw [h]
  rw [hred]
  by_cases hle : offset + bytes.length ≤ data.length
  · rw [if_pos hle]
    constructor
    · simp [hle]
    · intro hlt
      omega
  · rw [if_neg hle]
    constructor
    · constructor
      · intro hcontra
        exact WriteOutcome.noConfusion hcontra
      · intro hcontra
        exact absurd hcontra hle
    · intro hlt
      exact ⟨rfl, fun hc => WriteOutcome.noConfusion hc⟩

theorem write_mapped_range_panic_witness :
    (write_mapped mappedAllocation3 [7, 7] 2).1 = WriteOutcome.panicked ∧
    (write_mapped mappedAllocation3 [7, 7] 2).1 ≠ WriteOutcome.notMappedError := by
  have h := write_mapped_range_panic mappedAllocation3 [0, 0, 0] [7, 7] 2 rfl
  exact h.2 (by decide)

end Ash
